import Mathlib

/-!
Verification development for the Tether file-synchronization application.

The repository ships the React frontend (src/App.tsx and its extended
variant with the settings modal). Frontend handlers are embedded as pure
state-transition functions: each asynchronous backend invocation
(a Tauri invoke call) is modelled by an explicit result parameter of type
Except String _, and each call of new Date().toLocaleTimeString() by an
explicit timestamp parameter. The Rust backend (Sync Engine, Change
Watcher) is not part of the sources, so the sync algorithm is modelled
from the specification where a claim needs it; those definitions say so
in their doc comments.
-/

namespace Tether

/-- Mirror of the DriveInfo interface of App.tsx: a snapshot of one
mounted volume. -/
structure DriveInfo where
  name : String
  mount_point : String
  total_space : Nat
  available_space : Nat
deriving DecidableEq

/-- Mirror of the LogEntry interface of App.tsx: one audit-log line. -/
structure LogEntry where
  timestamp : String
  message : String
deriving DecidableEq

/-- The config value handled by the frontend: the ignored_extensions
record loaded from and saved to the external config store. -/
structure IgnoreConfig where
  ignored_extensions : List String
deriving DecidableEq

/-- The React state of the App component: one field per useState hook. -/
structure AppState where
  drives : List DriveInfo
  watchPath : String
  selectedDrive : Option String
  logs : List LogEntry
  isWatching : Bool
  isSettingsOpen : Bool
  config : IgnoreConfig
  newExt : String
deriving DecidableEq

/-- The initial state of the App component, from the useState initial
values. -/
def initialState : AppState :=
  { drives := []
    watchPath := ""
    selectedDrive := none
    logs := []
    isWatching := false
    isSettingsOpen := false
    config := { ignored_extensions := [] }
    newExt := "" }

/-- Embedding of addLog: prepend a log entry built from the current time
and the message to the logs list (setLogs with prev mapped to entry ::
prev). -/
def addLog (time msg : String) (s : AppState) : AppState :=
  { s with logs := { timestamp := time, message := msg } :: s.logs }

/-- Embedding of the JavaScript String.prototype.toLowerCase call as a
character-wise lowercase map. -/
def jsToLower (s : String) : String :=
  String.mk (s.data.map Char.toLower)

/-- Embedding of the JavaScript String.prototype.trim call: drop
whitespace from both ends. -/
def jsTrim (s : String) : String :=
  String.mk (((s.data.dropWhile Char.isWhitespace).reverse.dropWhile
    Char.isWhitespace).reverse)

/-- Embedding of the regex replace of a single leading dot,
replace(/^\./, ""): when the first character is a dot, drop it. -/
def dropLeadingDot (s : String) : String :=
  match s.data with
  | c :: rest => if c = '.' then String.mk rest else s
  | [] => s

/-- Whether a string begins with a dot (used to state claims about the
normalized extension). -/
def headIsDot (s : String) : Bool :=
  match s.data with
  | c :: _ => c = '.'
  | [] => false

/-- Whether a string begins with two dots. -/
def headIsTwoDots (s : String) : Bool :=
  match s.data with
  | c :: d :: _ => c = '.' && d = '.'
  | _ => false

/-- The normalization performed by addExtension on the raw input:
newExt.trim().toLowerCase().replace(/^\./, ""). -/
def normalizeExt (s : String) : String :=
  dropLeadingDot (jsToLower (jsTrim s))

/-- Embedding of saveConfig: invoke save_config with the new config
(always exactly one persistence call, returned as the second component);
on success set the in-memory config and log a confirmation, on rejection
leave the config unchanged and log the error. -/
def saveConfig (res : Except String Unit) (newConfig : IgnoreConfig)
    (ts : String) (s : AppState) : AppState × List IgnoreConfig :=
  match res with
  | .ok _ => (addLog ts "Settings updated." { s with config := newConfig }, [newConfig])
  | .error e => (addLog ts ("Error saving settings: " ++ e) s, [newConfig])

/-- Embedding of addExtension: bail out on an empty input or a duplicate
normalized extension, otherwise append the normalized extension and hand
the updated config to saveConfig, then clear the input field. The second
component records the save_config calls issued. -/
def addExtension (res : Except String Unit) (ts : String)
    (s : AppState) : AppState × List IgnoreConfig :=
  if s.newExt = "" then (s, [])
  else
    let clean := normalizeExt s.newExt
    if clean ∈ s.config.ignored_extensions then (s, [])
    else
      let updated : IgnoreConfig :=
        { ignored_extensions := s.config.ignored_extensions ++ [clean] }
      let r := saveConfig res updated ts s
      ({ r.1 with newExt := "" }, r.2)

/-- Embedding of removeExtension: filter the extension out of the list
and hand the updated config to saveConfig. The second component records
the save_config calls issued. -/
def removeExtension (ext : String) (res : Except String Unit) (ts : String)
    (s : AppState) : AppState × List IgnoreConfig :=
  let updated : IgnoreConfig :=
    { ignored_extensions := s.config.ignored_extensions.filter (fun e => e ≠ ext) }
  saveConfig res updated ts s

/-- JavaScript truthiness of a nullable string: null and the empty
string are falsy (the Start button tests !watchPath and
!selectedDrive). -/
def falsyStr : Option String → Bool
  | none => true
  | some v => v = ""

/-- Embedding of handleStartWatch: invoke start_watching with the
current watch path; on success set isWatching and log, on rejection only
log the error. -/
def handleStartWatch (res : Except String Unit) (ts : String)
    (s : AppState) : AppState :=
  match res with
  | .ok _ => addLog ts ("Started watching: " ++ s.watchPath) { s with isWatching := true }
  | .error e => addLog ts ("Error: " ++ e) s

/-- Embedding of handleBrowse: the directory-picker dialog either
rejects, returns null, or returns a selected directory that becomes the
watch path. -/
def handleBrowse (res : Except String (Option String)) (ts : String)
    (s : AppState) : AppState :=
  match res with
  | .ok (some sel) => { s with watchPath := sel }
  | .ok none => s
  | .error e => addLog ts ("Error picking directory: " ++ e) s

/-- Embedding of handleTrackAll: homeDir either resolves to the home
directory, which becomes the watch path (with a log line), or rejects. -/
def handleTrackAll (res : Except String String) (ts : String)
    (s : AppState) : AppState :=
  match res with
  | .ok home => addLog ts "Set target to User Home Directory" { s with watchPath := home }
  | .error e => addLog ts ("Error getting home dir: " ++ e) s

/-- The disabled attribute of the watch-path text input. -/
def watchInputDisabled (s : AppState) : Bool := s.isWatching

/-- The disabled attribute of the Browse button. -/
def browseDisabled (s : AppState) : Bool := s.isWatching

/-- The disabled attribute of the Track User Home button. -/
def trackHomeDisabled (s : AppState) : Bool := s.isWatching

/-- The disabled attribute of the Start Monitoring button:
isWatching or !watchPath or !selectedDrive. -/
def startDisabled (s : AppState) : Bool :=
  s.isWatching || s.watchPath = "" || falsyStr s.selectedDrive

/-- The frontend state together with the backend BackupTarget.
The backupTarget field is modelled from the spec: the backend holds an
optional BackupTarget, unset at startup, mutated by set_backup_path. -/
structure Sys where
  ui : AppState
  backupTarget : Option String
deriving DecidableEq

/-- The initial combined state: initial React state, no backup target. -/
def initialSys : Sys :=
  { ui := initialState, backupTarget := none }

/-- Embedding of handleSelectDrive over the combined state: set
selectedDrive to the clicked mount point unconditionally, then invoke
set_backup_path. Modelled from the spec: on success the backend
BackupTarget becomes the path; on rejection the backend state is
unchanged. -/
def handleSelectDrive (mount : String) (res : Except String Unit)
    (ts : String) (sys : Sys) : Sys :=
  let ui1 := { sys.ui with selectedDrive := some mount }
  match res with
  | .ok _ =>
    { ui := addLog ts ("Backup target set to: " ++ mount) ui1
      backupTarget := some mount }
  | .error e =>
    { ui := addLog ts ("Error setting backup: " ++ e) ui1
      backupTarget := sys.backupTarget }

/-- The user interactions and backend events the rendered App reacts to.
Each constructor carries the result of the backend invocation it
triggers, when there is one. -/
inductive UIEvent where
  | editPath (v : String)
  | browse (res : Except String (Option String))
  | trackHome (res : Except String String)
  | startWatch (res : Except String Unit)
  | selectDrive (mount : String) (res : Except String Unit)
  | openSettings
  | closeSettings
  | editNewExt (v : String)
  | addExt (res : Except String Unit)
  | removeExt (ext : String) (res : Except String Unit)
  | drivesChanged (ds : List DriveInfo)
  | fileSynced (p : String)
  | fileChanged (n : Nat)

/-- One step of the rendered App: a control that is disabled (or not
rendered, for the settings modal) swallows its event; otherwise the
corresponding handler runs. Backend events (drives-changed, file-synced,
file-changed listeners) are always live. -/
def uiStep (ts : String) (sys : Sys) (e : UIEvent) : Sys :=
  match e with
  | .editPath v =>
    if watchInputDisabled sys.ui then sys
    else { sys with ui := { sys.ui with watchPath := v } }
  | .browse res =>
    if browseDisabled sys.ui then sys
    else { sys with ui := handleBrowse res ts sys.ui }
  | .trackHome res =>
    if trackHomeDisabled sys.ui then sys
    else { sys with ui := handleTrackAll res ts sys.ui }
  | .startWatch res =>
    if startDisabled sys.ui then sys
    else { sys with ui := handleStartWatch res ts sys.ui }
  | .selectDrive mount res => handleSelectDrive mount res ts sys
  | .openSettings => { sys with ui := { sys.ui with isSettingsOpen := true } }
  | .closeSettings =>
    if sys.ui.isSettingsOpen then { sys with ui := { sys.ui with isSettingsOpen := false } }
    else sys
  | .editNewExt v =>
    if sys.ui.isSettingsOpen then { sys with ui := { sys.ui with newExt := v } }
    else sys
  | .addExt res =>
    if sys.ui.isSettingsOpen then { sys with ui := (addExtension res ts sys.ui).1 }
    else sys
  | .removeExt ext res =>
    if sys.ui.isSettingsOpen then { sys with ui := (removeExtension ext res ts sys.ui).1 }
    else sys
  | .drivesChanged ds =>
    { sys with ui := addLog ts "External drives updated." { sys.ui with drives := ds } }
  | .fileSynced p => { sys with ui := addLog ts ("Synced: " ++ p) sys.ui }
  | .fileChanged n =>
    { sys with ui := addLog ts ("Detected changes: " ++ toString n ++ " files") sys.ui }

/-- Modelled from the spec: the per-file data the Sync Engine compares
and copies (the Rust backend is absent from the sources). A file carries
a modification time, a size, and its bytes; copying transfers the bytes
and preserves the modification time. -/
structure SFile where
  mtime : Nat
  size : Nat
  bytes : List Nat
deriving DecidableEq

/-- A filesystem tree as a finite map from absolute path to file; the
most recent write for a path shadows older entries. -/
abbrev FS := List (String × SFile)

/-- Look a path up in a filesystem tree (first match wins). -/
def fsFind : FS → String → Option SFile
  | [], _ => none
  | (q, f) :: rest, p => if p = q then some f else fsFind rest p

/-- Modelled from the spec: relative = path - WatchTarget (step 1 of the
Sync Engine algorithm), as dropping the watch-root prefix. -/
def relOf (watch p : String) : String :=
  String.mk (p.data.drop watch.data.length)

/-- Modelled from the spec: destination = BackupTarget / relative. -/
def destOf (watch backup p : String) : String :=
  backup ++ "/" ++ relOf watch p

/-- The per-file result statuses of the Sync Engine. -/
inductive SyncStatus where
  | Copied
  | SkippedUnchanged
  | SkippedIgnored
  | Failed (reason : String)
deriving DecidableEq

/-- Modelled from the spec: the Sync Engine on a single path (steps 1-5
of section 4.4, the Rust backend is absent from the sources). A vanished
source yields SkippedIgnored and no destination action; a missing, older
or size-mismatched destination is overwritten by the source file
(preserving mtime) unless I/O fails for that destination path; otherwise
SkippedUnchanged. The ioFail oracle says which destination writes fail. -/
def syncPath (watch backup : String) (src : FS) (ioFail : String → Bool)
    (dst : FS) (p : String) : FS × SyncStatus :=
  match fsFind src p with
  | none => (dst, .SkippedIgnored)
  | some f =>
    let d := destOf watch backup p
    let copyNeeded :=
      match fsFind dst d with
      | none => true
      | some g => decide (g.mtime < f.mtime) || decide (g.size ≠ f.size)
    if copyNeeded then
      if ioFail d then (dst, .Failed "io error")
      else ((d, f) :: dst, .Copied)
    else (dst, .SkippedUnchanged)

/-- Modelled from the spec: the Sync Engine over a whole ChangeBatch,
processing paths in order and reporting one outcome per path; one
failure never aborts the batch. -/
def syncBatch (watch backup : String) (src : FS) (ioFail : String → Bool)
    (dst : FS) (batch : List String) : FS × List (String × SyncStatus) :=
  match batch with
  | [] => (dst, [])
  | p :: rest =>
    let r := syncPath watch backup src ioFail dst p
    let r2 := syncBatch watch backup src ioFail r.1 rest
    (r2.1, (p, r.2) :: r2.2)

/-! Frame lemmas shared by the claim theorems. -/

theorem addLog_watchPath (t m : String) (s : AppState) :
    (addLog t m s).watchPath = s.watchPath := rfl

theorem saveConfig_watchPath (res : Except String Unit) (cfg : IgnoreConfig)
    (ts : String) (s : AppState) :
    (saveConfig res cfg ts s).1.watchPath = s.watchPath := by
  cases res <;> rfl

theorem addExtension_watchPath (res : Except String Unit) (ts : String)
    (s : AppState) : (addExtension res ts s).1.watchPath = s.watchPath := by
  unfold addExtension
  by_cases h1 : s.newExt = ""
  · simp [h1]
  · by_cases h2 : normalizeExt s.newExt ∈ s.config.ignored_extensions
    · simp [h1, h2]
    · simp [h1, h2, saveConfig_watchPath]

theorem removeExtension_watchPath (ext : String) (res : Except String Unit)
    (ts : String) (s : AppState) :
    (removeExtension ext res ts s).1.watchPath = s.watchPath := by
  unfold removeExtension
  exact saveConfig_watchPath res _ ts s

theorem handleStartWatch_watchPath (res : Except String Unit) (ts : String)
    (s : AppState) : (handleStartWatch res ts s).watchPath = s.watchPath := by
  cases res <;> rfl

theorem handleSelectDrive_ui_watchPath (mount : String)
    (res : Except String Unit) (ts : String) (sys : Sys) :
    (handleSelectDrive mount res ts sys).ui.watchPath = sys.ui.watchPath := by
  cases res <;> rfl

/-- C8: addLog prepends exactly one entry built from the timestamp and
the message to the log list, leaves every previously recorded entry in
place, and changes no other component of the state. -/
theorem addLog_prepends_one_entry (time msg : String) (s : AppState) :
    (addLog time msg s).logs =
      { timestamp := time, message := msg } :: s.logs ∧
    (addLog time msg s).drives = s.drives ∧
    (addLog time msg s).watchPath = s.watchPath ∧
    (addLog time msg s).selectedDrive = s.selectedDrive ∧
    (addLog time msg s).isWatching = s.isWatching ∧
    (addLog time msg s).isSettingsOpen = s.isSettingsOpen ∧
    (addLog time msg s).config = s.config ∧
    (addLog time msg s).newExt = s.newExt := by
  refine ⟨rfl, rfl, rfl, rfl, rfl, rfl, rfl, rfl⟩

/-- C9: saveConfig commits the new config to the in-memory state exactly
when the save_config invocation resolves; when it rejects, the in-memory
config is unchanged and an error entry is prepended to the audit log. -/
theorem saveConfig_atomic (cfg : IgnoreConfig) (ts : String) (s : AppState) :
    ((saveConfig (.ok ()) cfg ts s).1.config = cfg ∧
     (saveConfig (.ok ()) cfg ts s).1.logs =
       { timestamp := ts, message := "Settings updated." } :: s.logs) ∧
    (∀ e : String,
      (saveConfig (.error e) cfg ts s).1.config = s.config ∧
      (saveConfig (.error e) cfg ts s).1.logs =
        { timestamp := ts, message := "Error saving settings: " ++ e } :: s.logs) := by
  exact ⟨⟨rfl, rfl⟩, fun e => ⟨rfl, rfl⟩⟩

/-- C6: handleStartWatch reaches the Watching phase exactly on a
resolved start_watching invocation: on success isWatching becomes true
and a Started-watching entry is logged; on rejection isWatching stays
false and an error entry is logged instead. -/
theorem handleStartWatch_transitions (ts : String) (s : AppState) :
    ((handleStartWatch (.ok ()) ts s).isWatching = true ∧
     (handleStartWatch (.ok ()) ts s).logs =
       { timestamp := ts, message := "Started watching: " ++ s.watchPath } :: s.logs) ∧
    (∀ e : String, s.isWatching = false →
      (handleStartWatch (.error e) ts s).isWatching = false ∧
      (handleStartWatch (.error e) ts s).logs =
        { timestamp := ts, message := "Error: " ++ e } :: s.logs) := by
  exact ⟨⟨rfl, rfl⟩, fun e h => ⟨h, rfl⟩⟩

/-- Witness for C6 at the initial state and a rejected invocation. -/
theorem handleStartWatch_transitions_witness :
    (handleStartWatch (.error "fail") "t0" initialState).isWatching = false ∧
    (handleStartWatch (.error "fail") "t0" initialState).logs =
      { timestamp := "t0", message := "Error: " ++ "fail" } :: initialState.logs :=
  (handleStartWatch_transitions "t0" initialState).2 "fail" rfl

/-- C4: while isWatching holds, the watch-path input, the Browse button
and the Track User Home button are all disabled, and no UI event at all
can change watchPath. -/
theorem watching_locks_watch_path (sys : Sys) (e : UIEvent) (ts : String)
    (h : sys.ui.isWatching = true) :
    watchInputDisabled sys.ui = true ∧ browseDisabled sys.ui = true ∧
    trackHomeDisabled sys.ui = true ∧
    (uiStep ts sys e).ui.watchPath = sys.ui.watchPath := by
  refine ⟨h, h, h, ?_⟩
  cases e with
  | editPath v => simp [uiStep, watchInputDisabled, h]
  | browse res => simp [uiStep, browseDisabled, h]
  | trackHome res => simp [uiStep, trackHomeDisabled, h]
  | startWatch res => simp [uiStep, startDisabled, h]
  | selectDrive m res =>
    simp only [uiStep]
    exact handleSelectDrive_ui_watchPath m res ts sys
  | openSettings => rfl
  | closeSettings => by_cases ho : sys.ui.isSettingsOpen <;> simp [uiStep, ho]
  | editNewExt v => by_cases ho : sys.ui.isSettingsOpen <;> simp [uiStep, ho]
  | addExt res =>
    by_cases ho : sys.ui.isSettingsOpen <;>
      simp [uiStep, ho, addExtension_watchPath]
  | removeExt ext res =>
    by_cases ho : sys.ui.isSettingsOpen <;>
      simp [uiStep, ho, removeExtension_watchPath]
  | drivesChanged ds => rfl
  | fileSynced p => rfl
  | fileChanged n => rfl

/-- Witness for C4 at a concrete watching state and a path-edit event. -/
theorem watching_locks_watch_path_witness :
    (uiStep "t" { ui := { initialState with isWatching := true }, backupTarget := none }
      (.editPath "/elsewhere")).ui.watchPath =
    ({ ui := { initialState with isWatching := true }, backupTarget := none } : Sys).ui.watchPath :=
  (watching_locks_watch_path
    { ui := { initialState with isWatching := true }, backupTarget := none }
    (.editPath "/elsewhere") "t" rfl).2.2.2

/-- C10: handleSelectDrive records the clicked mount point as selected
even when set_backup_path rejects; the backend backup target stays
unset, yet with a nonempty watch path while idle the Start Monitoring
button is enabled. -/
theorem handleSelectDrive_keeps_selection (sys : Sys) (m e ts : String)
    (hb : sys.backupTarget = none) (hm : m ≠ "")
    (hw : sys.ui.watchPath ≠ "") (hwatch : sys.ui.isWatching = false) :
    (handleSelectDrive m (.error e) ts sys).ui.selectedDrive = some m ∧
    (handleSelectDrive m (.error e) ts sys).backupTarget = none ∧
    startDisabled (handleSelectDrive m (.error e) ts sys).ui = false := by
  refine ⟨rfl, by simpa [handleSelectDrive] using hb, ?_⟩
  simp [handleSelectDrive, addLog, startDisabled, falsyStr, hwatch, hw, hm]

/-- Witness for C10 at a concrete idle state with a rejected
set_backup_path invocation. -/
theorem handleSelectDrive_keeps_selection_witness :
    (handleSelectDrive "/Volumes/USB" (.error "denied") "t"
      { ui := { initialState with watchPath := "/docs" }, backupTarget := none }).ui.selectedDrive
      = some "/Volumes/USB" ∧
    (handleSelectDrive "/Volumes/USB" (.error "denied") "t"
      { ui := { initialState with watchPath := "/docs" }, backupTarget := none }).backupTarget
      = none ∧
    startDisabled (handleSelectDrive "/Volumes/USB" (.error "denied") "t"
      { ui := { initialState with watchPath := "/docs" }, backupTarget := none }).ui
      = false :=
  handleSelectDrive_keeps_selection
    { ui := { initialState with watchPath := "/docs" }, backupTarget := none }
    "/Volumes/USB" "denied" "t" rfl (by decide) (by decide) rfl

/-- C3: an inserting addExtension call and every removeExtension call
each issue exactly one save_config persistence call, carrying the
updated config. -/
theorem mutations_persist_once (s : AppState) (res : Except String Unit)
    (ts ext : String) (h1 : s.newExt ≠ "")
    (h2 : normalizeExt s.newExt ∉ s.config.ignored_extensions) :
    (addExtension res ts s).2 =
      [{ ignored_extensions :=
          s.config.ignored_extensions ++ [normalizeExt s.newExt] }] ∧
    (removeExtension ext res ts s).2 =
      [{ ignored_extensions :=
          s.config.ignored_extensions.filter (fun x => x ≠ ext) }] := by
  constructor
  · unfold addExtension
    simp only [h1, h2, if_neg, if_false]
    cases res <;> simp [saveConfig, h1, h2]
  · unfold removeExtension
    cases res <;> simp [saveConfig]

/-- Witness for C3: adding the extension PDF to the initial config and
removing a (non-member) extension each issue one save_config call. -/
theorem mutations_persist_once_witness :
    (addExtension (.ok ()) "t" { initialState with newExt := "PDF" }).2 =
      [{ ignored_extensions := ["pdf"] }] ∧
    (removeExtension "log" (.ok ()) "t" { initialState with newExt := "PDF" }).2 =
      [{ ignored_extensions := [] }] := by
  simpa using mutations_persist_once { initialState with newExt := "PDF" }
    (.ok ()) "t" "log" (by decide) (by decide)

/-- C5 (amended): the Start Monitoring button is disabled whenever the
session is watching, the watch path is empty, or no drive is selected,
and a click event on the disabled button leaves the state unchanged. -/
theorem start_button_guard (sys : Sys) (res : Except String Unit) (ts : String)
    (h : sys.ui.isWatching = true ∨ sys.ui.watchPath = "" ∨
      sys.ui.selectedDrive = none) :
    startDisabled sys.ui = true ∧ uiStep ts sys (.startWatch res) = sys := by
  have hd : startDisabled sys.ui = true := by
    rcases h with h | h | h <;> simp [startDisabled, falsyStr, h]
  exact ⟨hd, by simp [uiStep, hd]⟩

/-- Witness for C5 (amended) at the initial state, whose watch path is
empty. -/
theorem start_button_guard_witness :
    startDisabled initialSys.ui = true ∧
    uiStep "t" initialSys (.startWatch (.ok ())) = initialSys :=
  start_button_guard initialSys (.ok ()) "t" (Or.inr (Or.inl rfl))

/-- C5 counterexample: after typing a watch path and clicking a drive
whose set_backup_path invocation rejects, the Start Monitoring button is
enabled although the backend backup target is still unset, so the
unset-BackupTarget start failure branch remains reachable from the UI. -/
theorem start_without_backup_reachable :
    startDisabled (uiStep "t2"
      (uiStep "t1" initialSys (.editPath "/home/user/docs"))
      (.selectDrive "/Volumes/USB" (.error "io error"))).ui = false ∧
    (uiStep "t2" (uiStep "t1" initialSys (.editPath "/home/user/docs"))
      (.selectDrive "/Volumes/USB" (.error "io error"))).backupTarget = none := by
  exact ⟨rfl, rfl⟩

/-! Character-level facts backing the extension-normalization claim. -/

theorem toLower_not_upper (c : Char) : (Char.toLower c).isUpper = false := by
  unfold Char.toLower
  dsimp only
  split
  · rename_i h
    obtain ⟨h1, h2⟩ := h
    generalize Char.toNat c = n at h1 h2 ⊢
    interval_cases n <;> decide
  · rename_i h
    by_cases h1 : (65 : UInt32) ≤ c.val
    · by_cases h2 : c.val ≤ (90 : UInt32)
      · exact absurd ⟨UInt32.le_toNat_of_le (by decide) h1,
          UInt32.toNat_le_of_le (by decide) h2⟩ h
      · simp [Char.isUpper, h2]
    · simp [Char.isUpper, h1]

theorem jsToLower_data (s : String) :
    (jsToLower s).data = s.data.map Char.toLower := rfl

theorem mem_dropLeadingDot (t : String) (c : Char)
    (hc : c ∈ (dropLeadingDot t).data) : c ∈ t.data := by
  unfold dropLeadingDot at hc
  split at hc
  · rename_i a rest heq
    split at hc
    · rw [heq]
      exact List.mem_cons_of_mem _ hc
    · exact hc
  · exact hc

theorem normalizeExt_not_upper (s : String) :
    ∀ c ∈ (normalizeExt s).data, c.isUpper = false := by
  intro c hc
  have h2 : c ∈ (jsToLower (jsTrim s)).data := mem_dropLeadingDot _ c hc
  rw [jsToLower_data] at h2
  obtain ⟨a, _, rfl⟩ := List.mem_map.1 h2
  exact toLower_not_upper a

theorem headIsDot_dropLeadingDot (t : String)
    (h : headIsTwoDots t = false) : headIsDot (dropLeadingDot t) = false := by
  rcases t with ⟨data⟩
  cases data with
  | nil => rfl
  | cons a rest =>
    by_cases ha : a = '.'
    · subst ha
      cases rest with
      | nil => rfl
      | cons b r2 =>
        simp only [headIsTwoDots] at h
        simp only [dropLeadingDot, headIsDot]
        simp at h
        simp [h]
    · simp [dropLeadingDot, headIsDot, ha]

/-- C2 (amended): an inserting addExtension call appends exactly
normalizeExt newExt (the input trimmed, lowercased, with one leading dot
removed) to ignored_extensions; the inserted string contains no
uppercase character, and it has no leading dot whenever the trimmed
lowercased input does not begin with two dots. -/
theorem addExtension_insert_normalized (s : AppState) (ts : String)
    (h1 : s.newExt ≠ "")
    (h2 : normalizeExt s.newExt ∉ s.config.ignored_extensions) :
    (addExtension (.ok ()) ts s).1.config.ignored_extensions =
      s.config.ignored_extensions ++ [normalizeExt s.newExt] ∧
    (∀ c ∈ (normalizeExt s.newExt).data, c.isUpper = false) ∧
    (headIsTwoDots (jsToLower (jsTrim s.newExt)) = false →
      headIsDot (normalizeExt s.newExt) = false) := by
  refine ⟨?_, normalizeExt_not_upper s.newExt,
    fun h => headIsDot_dropLeadingDot (jsToLower (jsTrim s.newExt)) h⟩
  unfold addExtension
  simp [h1, h2, saveConfig, addLog]

/-- Witness for C2 (amended): adding " .TXT " to the initial config
inserts exactly the normalized extension. -/
theorem addExtension_insert_normalized_witness :
    (addExtension (.ok ()) "t"
      { initialState with newExt := " .TXT " }).1.config.ignored_extensions =
      initialState.config.ignored_extensions ++ [normalizeExt " .TXT "] :=
  (addExtension_insert_normalized { initialState with newExt := " .TXT " } "t"
    (by decide) (by decide)).1

/-- C2 counterexample: with raw input "..MP4" the extension actually
inserted into ignored_extensions is ".mp4", which still begins with a
dot, refuting the no-leading-dot part of the claim as stated. -/
theorem addExtension_leading_dot_cex :
    (addExtension (.ok ()) "t"
      { initialState with newExt := "..MP4" }).1.config.ignored_extensions
      = [".mp4"] ∧
    headIsDot ".mp4" = true := by
  exact ⟨rfl, rfl⟩

/-! Sync Engine lemmas. -/

theorem fsFind_mem (src : FS) (p : String) (f : SFile)
    (h : fsFind src p = some f) : (p, f) ∈ src := by
  induction src with
  | nil => simp [fsFind] at h
  | cons hd tl ih =>
    obtain ⟨q, g⟩ := hd
    unfold fsFind at h
    by_cases hpq : p = q
    · subst hpq
      rw [if_pos rfl] at h
      obtain rfl : g = f := by injection h
      exact List.mem_cons_self _ _
    · rw [if_neg hpq] at h
      exact List.mem_cons_of_mem _ (ih h)

/-- C1: a destination path that is not the destination of any existing
source file is never written: processing any ChangeBatch leaves the
backup entry at that path exactly as it was, whatever the I/O failures.
The Sync Engine is modelled from the spec (the Rust backend is absent
from the sources). -/
theorem sync_preserves_orphans (watch backup : String) (src : FS)
    (ioFail : String → Bool) (dst : FS) (batch : List String) (q : String)
    (h : ∀ pr ∈ src, destOf watch backup pr.1 ≠ q) :
    fsFind (syncBatch watch backup src ioFail dst batch).1 q = fsFind dst q := by
  induction batch generalizing dst with
  | nil => rfl
  | cons p rest ih =>
    have hstep : fsFind (syncPath watch backup src ioFail dst p).1 q
        = fsFind dst q := by
      unfold syncPath
      cases hsrc : fsFind src p with
      | none => rfl
      | some f =>
        have hdq : destOf watch backup p ≠ q :=
          h (p, f) (fsFind_mem src p f hsrc)
        dsimp only
        split
        · split
          · rfl
          · simp [fsFind, Ne.symm hdq]
        · rfl
    unfold syncBatch
    dsimp only
    rw [ih ((syncPath watch backup src ioFail dst p).1)]
    exact hstep

/-- Witness for C1: syncing one changed source file does not touch an
unrelated pre-existing file on the backup target. -/
theorem sync_preserves_orphans_witness :
    fsFind (syncBatch "/w" "/b"
      [("/w/a.txt", { mtime := 5, size := 3, bytes := [1, 2, 3] })]
      (fun _ => false)
      [("/b/keep.txt", { mtime := 1, size := 1, bytes := [9] })]
      ["/w/a.txt"]).1 "/b/keep.txt"
      = fsFind [("/b/keep.txt", { mtime := 1, size := 1, bytes := [9] })]
          "/b/keep.txt" :=
  sync_preserves_orphans "/w" "/b"
    [("/w/a.txt", { mtime := 5, size := 3, bytes := [1, 2, 3] })]
    (fun _ => false)
    [("/b/keep.txt", { mtime := 1, size := 1, bytes := [9] })]
    ["/w/a.txt"] "/b/keep.txt" (by decide)

/-- A path is up to date: its source file exists and the destination
holds a file that is neither older than the source nor of a different
size, so step 3 of the algorithm does not fire. -/
def upToDate (watch backup : String) (src st : FS) (p : String) : Prop :=
  ∃ f g, fsFind src p = some f ∧
    fsFind st (destOf watch backup p) = some g ∧
    ¬ g.mtime < f.mtime ∧ g.size = f.size

theorem syncPath_of_upToDate (watch backup : String) (src : FS)
    (ioFail : String → Bool) (st : FS) (p : String)
    (h : upToDate watch backup src st p) :
    syncPath watch backup src ioFail st p = (st, .SkippedUnchanged) := by
  obtain ⟨f, g, hsrc, hdst, hmt, hsz⟩ := h
  unfold syncPath
  rw [hsrc]
  dsimp only
  rw [hdst]
  simp [hmt, hsz]

theorem syncPath_establishes (watch backup : String) (src : FS)
    (ioFail : String → Bool) (st : FS) (p : String) (f : SFile)
    (hsrc : fsFind src p = some f)
    (hio : ioFail (destOf watch backup p) = false) :
    upToDate watch backup src (syncPath watch backup src ioFail st p).1 p := by
  unfold syncPath
  rw [hsrc]
  dsimp only
  cases hdst : fsFind st (destOf watch backup p) with
  | none =>
    rw [hio]
    exact ⟨f, f, hsrc, by simp [fsFind], by simp, rfl⟩
  | some g =>
    by_cases hneed :
        (decide (g.mtime < f.mtime) || decide (g.size ≠ f.size)) = true
    · rw [if_pos hneed, hio]
      exact ⟨f, f, hsrc, by simp [fsFind], by simp, rfl⟩
    · rw [if_neg hneed]
      rw [Bool.or_eq_true, decide_eq_true_eq, decide_eq_true_eq] at hneed
      push_neg at hneed
      exact ⟨f, g, hsrc, hdst, Nat.not_lt.mpr hneed.1, hneed.2⟩

theorem syncPath_preserves (watch backup : String) (src : FS)
    (ioFail : String → Bool) (st : FS) (q p : String)
    (hne : destOf watch backup p ≠ destOf watch backup q)
    (h : upToDate watch backup src st p) :
    upToDate watch backup src (syncPath watch backup src ioFail st q).1 p := by
  obtain ⟨f, g, hsrc, hdst, hmt, hsz⟩ := h
  refine ⟨f, g, hsrc, ?_, hmt, hsz⟩
  unfold syncPath
  cases hq : fsFind src q with
  | none => exact hdst
  | some fq =>
    dsimp only
    split
    · split
      · exact hdst
      · simp [fsFind, hne, hdst]
    · exact hdst

theorem syncBatch_preserves (watch backup : String) (src : FS)
    (ioFail : String → Bool) (p : String) :
    ∀ (batch : List String) (st : FS),
      (∀ q ∈ batch, q = p ∨ destOf watch backup p ≠ destOf watch backup q) →
      upToDate watch backup src st p →
      upToDate watch backup src
        (syncBatch watch backup src ioFail st batch).1 p := by
  intro batch
  induction batch with
  | nil => intro st _ h; exact h
  | cons q rest ih =>
    intro st hcomp h
    unfold syncBatch
    dsimp only
    apply ih _ (fun r hr => hcomp r (List.mem_cons_of_mem _ hr))
    rcases hcomp q (List.mem_cons_self _ _) with hq | hq
    · subst hq
      rw [syncPath_of_upToDate watch backup src ioFail st q h]
      exact h
    · exact syncPath_preserves watch backup src ioFail st q p hq h

theorem syncBatch_establishes (watch backup : String) (src : FS)
    (ioFail : String → Bool) :
    ∀ (batch : List String) (st : FS),
      (∀ p ∈ batch, (fsFind src p).isSome = true) →
      (∀ p ∈ batch, ∀ q ∈ batch,
        destOf watch backup p = destOf watch backup q → p = q) →
      (∀ p ∈ batch, ioFail (destOf watch backup p) = false) →
      ∀ p ∈ batch,
        upToDate watch backup src
          (syncBatch watch backup src ioFail st batch).1 p := by
  intro batch
  induction batch with
  | nil => intro st _ _ _ p hp; cases hp
  | cons q rest ih =>
    intro st hsome hinj hio p hp
    unfold syncBatch
    dsimp only
    rcases List.mem_cons.1 hp with hpq | hpr
    · subst hpq
      obtain ⟨f, hf⟩ := Option.isSome_iff_exists.1
        (hsome p (List.mem_cons_self _ _))
      have h1 := syncPath_establishes watch backup src ioFail st p f hf
        (hio p (List.mem_cons_self _ _))
      refine syncBatch_preserves watch backup src ioFail p rest _ ?_ h1
      intro r hr
      rcases eq_or_ne r p with he | hne
      · exact Or.inl he
      · refine Or.inr (fun hd => hne ?_)
        exact hinj r (List.mem_cons_of_mem _ hr) p (List.mem_cons_self _ _)
          hd.symm
    · exact ih _ (fun r hr => hsome r (List.mem_cons_of_mem _ hr))
        (fun a ha b hb => hinj a (List.mem_cons_of_mem _ ha) b
          (List.mem_cons_of_mem _ hb))
        (fun r hr => hio r (List.mem_cons_of_mem _ hr)) p hpr

theorem syncBatch_of_upToDate (watch backup : String) (src : FS)
    (ioFail : String → Bool) :
    ∀ (batch : List String) (st : FS),
      (∀ p ∈ batch, upToDate watch backup src st p) →
      syncBatch watch backup src ioFail st batch =
        (st, batch.map (fun p => (p, SyncStatus.SkippedUnchanged))) := by
  intro batch
  induction batch with
  | nil => intro st _; rfl
  | cons q rest ih =>
    intro st h
    unfold syncBatch
    dsimp only
    rw [syncPath_of_upToDate watch backup src ioFail st q
      (h q (List.mem_cons_self _ _))]
    rw [ih st (fun p hp => h p (List.mem_cons_of_mem _ hp))]
    rfl

/-- C7: with no I/O failures, rerunning the Sync Engine on an unchanged
source tree over the same batch of source files yields SkippedUnchanged
for every file: nothing is copied again. The Sync Engine is modelled
from the spec (the Rust backend is absent from the sources). -/
theorem sync_idempotent (watch backup : String) (src dst : FS)
    (batch : List String)
    (h1 : ∀ p ∈ batch, (fsFind src p).isSome = true)
    (h2 : ∀ p ∈ batch, ∀ q ∈ batch,
      destOf watch backup p = destOf watch backup q → p = q) :
    (syncBatch watch backup src (fun _ => false)
      (syncBatch watch backup src (fun _ => false) dst batch).1 batch).2 =
      batch.map (fun p => (p, SyncStatus.SkippedUnchanged)) := by
  have hok := syncBatch_establishes watch backup src (fun _ => false)
    batch dst h1 h2 (fun p _ => rfl)
  rw [syncBatch_of_upToDate watch backup src (fun _ => false) batch
    ((syncBatch watch backup src (fun _ => false) dst batch).1) hok]

/-- Witness for C7: after one run copying a single file into an empty
backup, the second run over the same batch skips it as unchanged. -/
theorem sync_idempotent_witness :
    (syncBatch "/w" "/b"
      [("/w/a.txt", { mtime := 5, size := 3, bytes := [1, 2, 3] })]
      (fun _ => false)
      (syncBatch "/w" "/b"
        [("/w/a.txt", { mtime := 5, size := 3, bytes := [1, 2, 3] })]
        (fun _ => false) [] ["/w/a.txt"]).1 ["/w/a.txt"]).2 =
      ["/w/a.txt"].map (fun p => (p, SyncStatus.SkippedUnchanged)) :=
  sync_idempotent "/w" "/b"
    [("/w/a.txt", { mtime := 5, size := 3, bytes := [1, 2, 3] })] []
    ["/w/a.txt"] (by decide) (by decide)

end Tether
